import Mathlib

/-!
Verification development for the editor-js video tool (src/src/index.js).

The JavaScript source is shallowly embedded: the mutable `_data` record of
the `VideoTool` class becomes an explicit `BlockData` value threaded through
the operations, presenter / host / console side effects become an explicit
list of `Event`s, and JavaScript dynamic values touched by the code (strict
equality against `true` and the string "true", truthiness tests) are
embedded by a small `JValue` type.
-/

namespace VideoToolProof

/-- A JavaScript value as far as the tool's dynamic checks observe it:
`validate` returns `savedData.file && savedData.file.url` (undefined or a
string), and `set data` compares `data[tune]` against the boolean `true`
and the string `"true"` and tests it for `undefined`. -/
inductive JValue where
  | undef
  | bool (b : Bool)
  | str (s : String)
  | num (n : Int)
deriving DecidableEq

/-- JavaScript truthiness restricted to `JValue`. -/
def truthy : JValue → Bool
  | .undef => false
  | .bool b => b
  | .str s => s != ""
  | .num n => n != 0

/-- The backend file payload: an object with an optional `url` property and
opaque extra properties that pass through unchanged (index.js lines 68-76). -/
structure FileData where
  url : Option String := none
  extra : List (String × String) := []
deriving DecidableEq

/-- The empty object `{}` that `set video` stores for a falsy argument. -/
def emptyFile : FileData := {}

/-- The input record handed to the constructor / `set data`
(`VideoToolData`, index.js lines 33-42): `file` and `caption` may be
absent, and the tune properties are dynamic keys looked up on the record. -/
structure InputData where
  file : Option FileData := none
  caption : Option String := none
  tunes : List (String × JValue) := []
deriving DecidableEq

/-- `data[tune]` property read: absent keys are `undefined`. -/
def lookupJ (l : List (String × JValue)) (k : String) : JValue :=
  (l.lookup k).getD JValue.undef

/-- The tool's internal `this._data` object. It starts as `{}` (all keys
absent); `set video` writes `file`, `set data` / `save` write `caption`,
and `setTune` writes one boolean property per tune name. -/
structure BlockData where
  file : Option FileData := none
  caption : Option String := none
  tunes : List (String × Bool) := []
deriving DecidableEq

/-- `this._data = {}` (index.js line 185). -/
def initialData : BlockData := {}

/-- Observable side effects on the collaborators (Presenter `ui`, Editor
Host `api`, the host `block`, and the console). -/
inductive Event where
  | fillVideo (url : String)
  | fillCaption (text : String)
  | applyTune (name : String) (value : Bool)
  | scheduleStretched (value : Bool)
  | showPreloader (src : String)
  | hidePreloader
  | notify (message : String)
  | logFailure (text : String)
  | logError (text : String)
deriving DecidableEq

/-- Is the event a user-facing notification (`api.notifier.show`)? -/
def isNotify : Event → Bool
  | .notify _ => true
  | _ => false

/-- A configured tune descriptor (`config.actions` entries and the static
registry rows share this shape; the custom `action` callback is opaque). -/
structure TuneDescriptor where
  name : String
  icon : String := ""
  title : String := ""
  toggle : Bool := true
deriving DecidableEq

/-- The slice of the constructor's `this.config` that the embedded
operations can observe (index.js lines 145-155). -/
structure ToolConfig where
  actions : List TuneDescriptor := []
deriving DecidableEq

/-- Names of the static tune registry `VideoTool.tunes`, in source order
(index.js lines 106-127). -/
def registryTunes : List String := ["withBorder", "stretched", "withBackground"]

/-- `setTune(tuneName, value)` (index.js lines 443-460): writes
`this._data[tuneName] = value`, calls `ui.applyTune`, and for the
distinguished `"stretched"` tune schedules one asynchronous propagation
to `this.block.stretched` (the `Promise.resolve().then(...)`). -/
def setTune (tuneName : String) (value : Bool) (st : BlockData) : BlockData × List Event :=
  let st1 : BlockData := { st with tunes := (tuneName, value) :: st.tunes }
  let evs := [Event.applyTune tuneName value] ++
    (if tuneName = "stretched" then [Event.scheduleStretched value] else [])
  (st1, evs)

/-- The host block property mirror targeted by the stretched propagation. -/
structure HostBlock where
  stretched : Bool := false
deriving DecidableEq

/-- The scheduled continuation of the stretched propagation
(index.js lines 452-458): `this.block.stretched = value`, with any
exception caught and sent to `console.error`. `failure = some err` embeds
the host setter throwing `err`; the tool's `_data` is not touched. -/
def runStretchPropagation (value : Bool) (failure : Option String)
    (st : BlockData) (host : HostBlock) : BlockData × HostBlock × List Event :=
  match failure with
  | none => (st, { host with stretched := value }, [])
  | some err => (st, host, [Event.logError err])

/-- `set video(file)` (index.js lines 382-388): `this._data.file = file || {}`,
then `ui.fillVideo(file.url)` exactly when `file && file.url` is truthy. -/
def setVideo (file : Option FileData) (st : BlockData) : BlockData × List Event :=
  let st1 : BlockData :=
    { st with file := some (match file with | some fd => fd | none => emptyFile) }
  let evs : List Event :=
    match file with
    | some fd =>
      match fd.url with
      | some u => if u != "" then [Event.fillVideo u] else []
      | none => []
    | none => []
  (st1, evs)

/-- `data.caption || ''` (JavaScript `||` on an optional string). -/
def jsOrString (o : Option String) (dflt : String) : String :=
  match o with
  | some s => if s != "" then s else dflt
  | none => dflt

/-- One step of the registry loop in `set data` (index.js lines 357-361):
`const value = typeof data[tune] !== 'undefined'
   ? data[tune] === true || data[tune] === 'true' : false;
 this.setTune(tune, value)`. -/
def setDataTuneStep (d : InputData) (acc : BlockData × List Event) (tune : String) :
    BlockData × List Event :=
  let w := lookupJ d.tunes tune
  let value := if w != JValue.undef
    then (w == JValue.bool true || w == JValue.str "true")
    else false
  let r := setTune tune value acc.1
  (r.1, acc.2 ++ r.2)

/-- `set data(data)` (index.js lines 351-362): `this.video = data.file`,
then caption normalization and `ui.fillCaption`, then the loop over the
static registry `VideoTool.tunes` (and only over it). -/
def setData (d : InputData) (st : BlockData) : BlockData × List Event :=
  let r1 := setVideo d.file st
  let cap := jsOrString d.caption ""
  let st2 : BlockData := { r1.1 with caption := some cap }
  let evs2 := r1.2 ++ [Event.fillCaption cap]
  registryTunes.foldl (setDataTuneStep d) (st2, evs2)

/-- The constructor (index.js lines 137-187): stores `config` (including
`config.actions`), wires the uploader and the UI, sets `this._data = {}`
and runs the `data` setter. The configured actions are stored but never
consulted by `set data`, which iterates the static registry only. -/
def construct (_cfg : ToolConfig) (d : InputData) : BlockData × List Event :=
  setData d initialData

/-- `validate(savedData)` (index.js lines 207-209):
`return savedData.file && savedData.file.url` — the JavaScript `&&`
returns the first falsy operand or the last operand, so the result is
`undefined`, or the `url` value itself, never a fresh boolean. -/
def validate (savedData : InputData) : JValue :=
  match savedData.file with
  | none => JValue.undef
  | some f =>
    match f.url with
    | none => JValue.undef
    | some u => JValue.str u

/-- The localized error message shown by `uploadingFailed`. -/
def uploadErrorMessage : String := "Couldn’t upload video. Please try another."

/-- `uploadingFailed(errorText)` (index.js lines 413-421): logs, shows one
error notification, hides the preloader; `this._data` is untouched. -/
def uploadingFailed (errorText : String) (st : BlockData) : BlockData × List Event :=
  (st, [Event.logFailure ("Video Tool: uploading failed because of " ++ errorText),
        Event.notify uploadErrorMessage,
        Event.hidePreloader])

/-- The Gateway response (`UploadResponseFormat`, index.js lines 68-76):
`success` is 0 or 1, `file` may be absent. -/
structure UploadResponse where
  success : Nat := 0
  file : Option FileData := none
deriving DecidableEq

/-- A crude rendering of `JSON.stringify(response)` for the diagnostic log. -/
def stringifyResponse (r : UploadResponse) : String :=
  "\x7b\"success\":" ++ toString r.success ++
    (match r.file with
     | none => ""
     | some fd =>
        ",\"file\":\x7b" ++
          (match fd.url with
           | some u => "\"url\":\"" ++ u ++ "\""
           | none => "") ++ "\x7d") ++ "\x7d"

/-- `onUpload(response)` (index.js lines 398-404): on
`response.success && response.file` truthy, `this.video = response.file`;
otherwise `uploadingFailed('incorrect response: ' + JSON.stringify(response))`. -/
def onUpload (r : UploadResponse) (st : BlockData) : BlockData × List Event :=
  if r.success != 0 && r.file.isSome then
    setVideo r.file st
  else
    uploadingFailed ("incorrect response: " ++ stringifyResponse r) st

/-- A pasted / fetched binary, opaque to the tool. -/
structure Blob where
  bytes : List Nat := []
deriving DecidableEq

/-- The editor's paste event as classified by `event.type`
(index.js lines 307-337): `tag` carries the video element's `src`,
`pattern` a URL string, `file` a binary; `other` is any other category. -/
inductive PasteEvent where
  | tag (src : String)
  | pattern (url : String)
  | file (f : Blob)
  | other (eventType : String)
deriving DecidableEq

/-- Where `onPaste` routes the event. -/
inductive PasteAction where
  | uploadFile (f : Blob)
  | uploadUrl (url : String)
  | ignored
deriving DecidableEq

/-- `onPaste(event)` (index.js lines 307-337). `fetchBlob` embeds the
`await fetch(video.src)` / `.blob()` pair performed for local-blob
sources (`/^blob:/.test(video.src)`); the default switch case does
nothing. -/
def onPaste (fetchBlob : String → Blob) : PasteEvent → PasteAction
  | .tag src =>
    if "blob:".isPrefixOf src then PasteAction.uploadFile (fetchBlob src)
    else PasteAction.uploadUrl src
  | .pattern url => PasteAction.uploadUrl url
  | .file f => PasteAction.uploadFile f
  | .other _ => PasteAction.ignored

/-- A file payload is well-formed when it is absent, the empty object, or
carries a non-empty `url` string (the shape the spec's data model gives
for backend and input file payloads). -/
def wfFile : Option FileData → Bool
  | none => true
  | some fd =>
    fd == emptyFile ||
      (match fd.url with
       | some u => u != ""
       | none => false)

/-- The file-field invariant of claim C3 on a stored `_data.file`: the key
is present and holds the empty object or an object with a non-empty `url`. -/
def goodFileOpt : Option FileData → Bool
  | none => false
  | some fd =>
    fd == emptyFile ||
      (match fd.url with
       | some u => u != ""
       | none => false)

/-- The invariant read off a block record. -/
def goodFile (st : BlockData) : Bool := goodFileOpt st.file

/-- The public operations that mutate the file field after construction:
upload completion (`onUpload`) and direct file setting (`set video`). -/
inductive FileOp where
  | upload (r : UploadResponse)
  | setFile (f : Option FileData)
deriving DecidableEq

/-- Run one file operation on the block record (events dropped). -/
def applyFileOp (st : BlockData) : FileOp → BlockData
  | .upload r => (onUpload r st).1
  | .setFile f => (setVideo f st).1

/-- The operation's file payload is well-formed. -/
def wfFileOp : FileOp → Bool
  | .upload r => wfFile r.file
  | .setFile f => wfFile f

/-- `tuneToggled(tuneName)` (index.js lines 431-434): inverts the current
value (`!this._data[tuneName]`, absent keys being falsy) and routes
through `setTune`. -/
def tuneToggled (tuneName : String) (st : BlockData) : BlockData × List Event :=
  setTune tuneName (!((st.tunes.lookup tuneName).getD false)) st

/-!
The static paste URL pattern (index.js line 286):
  `/https?:\/\/\S+\.(avi|wmv|mov|webm|mpeg4|ts|mpg|rm|rmvb|mkv|mp4)(\?[a-z0-9=]*)?$/i`
hand-compiled into an executable matcher over character lists.
`RegExp.test` with a pattern that is unanchored on the left and
`$`-anchored on the right succeeds exactly when some suffix of the input
is in the pattern's language; the `i` flag is embedded by ASCII-lowercasing
the input and writing the pattern's letters in lowercase.
-/

/-- `http://` as characters. -/
def httpSchemeL : List Char := ['h', 't', 't', 'p', ':', '/', '/']

/-- `https://` as characters. -/
def httpsSchemeL : List Char := ['h', 't', 't', 'p', 's', ':', '/', '/']

/-- `https?://` — strip the scheme if present (`https` cannot also parse
as `http` followed by `://`, so the two tests are exclusive). -/
def stripScheme (t : List Char) : Option (List Char) :=
  if httpsSchemeL.isPrefixOf t then some (t.drop 8)
  else if httpSchemeL.isPrefixOf t then some (t.drop 7)
  else none

/-- The recognized extensions `avi|wmv|mov|webm|mpeg4|ts|mpg|rm|rmvb|mkv|mp4`. -/
def videoExtensionsL : List (List Char) :=
  [['a', 'v', 'i'], ['w', 'm', 'v'], ['m', 'o', 'v'], ['w', 'e', 'b', 'm'],
   ['m', 'p', 'e', 'g', '4'], ['t', 's'], ['m', 'p', 'g'], ['r', 'm'],
   ['r', 'm', 'v', 'b'], ['m', 'k', 'v'], ['m', 'p', '4']]

/-- The extension alternation. -/
def isExtension (e : List Char) : Bool := decide (e ∈ videoExtensionsL)

/-- The character class `[a-z0-9=]` (on the lowercased input). -/
def isQueryChar (c : Char) : Bool :=
  (97 ≤ c.toNat && c.toNat ≤ 122) || (48 ≤ c.toNat && c.toNat ≤ 57) || c == '='

/-- The optional group `(\?[a-z0-9=]*)?` consuming the rest of the input:
empty, or `?` followed by query-class characters. -/
def isQueryPart (q : List Char) : Bool :=
  q.isEmpty || (q.head? == some '?' && q.tail.all isQueryChar)

/-- `\.`(extension): a dot followed by one of the recognized extensions. -/
def isDotExt (e : List Char) : Bool :=
  e.head? == some '.' && isExtension e.tail

/-- The ECMAScript `\s` class (WhiteSpace ∪ LineTerminator):
tab, LF, vertical tab, form feed, CR, space, NBSP, U+1680,
U+2000-U+200A, U+2028, U+2029, U+202F, U+205F, U+3000 and U+FEFF.
`\S` is its complement. -/
def isJsWhitespace (c : Char) : Bool :=
  c.toNat == 0x9 || c.toNat == 0xA || c.toNat == 0xB || c.toNat == 0xC
  || c.toNat == 0xD || c.toNat == 0x20 || c.toNat == 0xA0 || c.toNat == 0x1680
  || (0x2000 ≤ c.toNat && c.toNat ≤ 0x200A)
  || c.toNat == 0x2028 || c.toNat == 0x2029 || c.toNat == 0x202F
  || c.toNat == 0x205F || c.toNat == 0x3000 || c.toNat == 0xFEFF

/-- `\S+`: a nonempty run of characters outside the `\s` class. -/
def bodyOk (b : List Char) : Bool :=
  !b.isEmpty && b.all (fun c => !isJsWhitespace c)

/-- All decompositions `l = a ++ b`. -/
def splits : List Char → List (List Char × List Char)
  | [] => [([], [])]
  | c :: cs => ([], c :: cs) :: (splits cs).map (fun p => (c :: p.1, p.2))

/-- Does a whole character list belong to the language of
`https?:\/\/\S+\.(ext alternation)(\?[a-z0-9=]*)?` (lowercase letters)? -/
def matchTail (t : List Char) : Bool :=
  match stripScheme t with
  | none => false
  | some r =>
    (splits r).any fun p =>
      bodyOk p.1 &&
      (splits p.2).any fun q => isDotExt q.1 && isQueryPart q.2

/-- `pasteConfig.patterns.video.test(s)`: some suffix of the
ASCII-lowercased input matches the whole pattern up to its `$` anchor. -/
def patternTest (s : String) : Bool :=
  ((s.data.map Char.toLower).tails).any matchTail

/-- Following the words of claim C7 (not the source): the string itself is
an http or https URL (scheme matched case-insensitively), a nonempty
non-whitespace body, a dot, one of the recognized extensions matched
case-insensitively, and an optional trailing query string made of
lowercase letters, digits and the `=` separators of its `key=value` form. -/
def claimedQueryChar (c : Char) : Bool :=
  (97 ≤ c.toNat && c.toNat ≤ 122) || (48 ≤ c.toNat && c.toNat ≤ 57) || c == '='

/-- Query part per the claim's words: empty or `?` followed by lowercase
letters, digits or `=` of the original (non-case-folded) input. -/
def claimedQueryPart (q : List Char) : Bool :=
  q.isEmpty || (q.head? == some '?' && q.tail.all claimedQueryChar)

/-- Scheme per the claim's words, case-insensitively, on the raw input. -/
def stripSchemeCI (t : List Char) : Option (List Char) :=
  if (t.take 8).map Char.toLower == httpsSchemeL then some (t.drop 8)
  else if (t.take 7).map Char.toLower == httpSchemeL then some (t.drop 7)
  else none

/-- The whole characterization written from claim C7's words: only the
extension is case-folded, the query must be lowercase. -/
def claimedUrlShape (s : String) : Bool :=
  match stripSchemeCI s.data with
  | none => false
  | some r =>
    (splits r).any fun p =>
      bodyOk p.1 &&
      (splits p.2).any fun q =>
        isDotExt (q.1.map Char.toLower) && claimedQueryPart q.2

/-- Declarative shape of the optional query group: empty, or `?` followed
by characters of the (case-folded) class `[a-z0-9=]`. -/
def QueryShape (q : List Char) : Prop :=
  q = [] ∨ ∃ qs, q = '?' :: qs ∧ ∀ c ∈ qs, isQueryChar c = true

/-- Declarative shape of a whole (case-folded) match of the source
pattern: scheme, nonempty body outside the JavaScript `\s` class, dot,
recognized extension, optional query. -/
def VideoUrlShape (t : List Char) : Prop :=
  ∃ scheme body ext q,
    t = scheme ++ body ++ '.' :: (ext ++ q)
    ∧ (scheme = httpsSchemeL ∨ scheme = httpSchemeL)
    ∧ body ≠ []
    ∧ (∀ c ∈ body, isJsWhitespace c = false)
    ∧ ext ∈ videoExtensionsL
    ∧ QueryShape q

/-- The tool instance heap for the aliasing claim about `save()`: the
`_data` object lives at address `dataRef`; JavaScript object references
are addresses. -/
structure ToolHeap where
  dataRef : Nat
  heap : Nat → BlockData

/-- `save()` (index.js lines 218-224): writes the Presenter's live caption
into `this._data.caption` and returns `this.data`, i.e. the getter
(lines 371-373) returns the reference `this._data` itself, not a copy. -/
def save (captionHTML : String) (ts : ToolHeap) : ToolHeap × Nat :=
  let r := ts.dataRef
  let updated := fun a =>
    if a = r then { ts.heap a with caption := some captionHTML } else ts.heap a
  ({ ts with heap := updated }, r)

/-- C1: `validate` does not return booleans. At the record
`{file:{url:"http://x/v.mp4"}}` it returns the url string itself (the
JavaScript `&&` chain), not the boolean `true`; at `{file:{}}` and `{}` it
returns `undefined`, not the boolean `false`. Truthiness-wise it is
correct: the result is truthy exactly when `file.url` is a non-empty
string. -/
theorem validate_not_boolean_bug :
    validate { file := some { url := some "http://x/v.mp4" } } = JValue.str "http://x/v.mp4"
    ∧ JValue.str "http://x/v.mp4" ≠ JValue.bool true
    ∧ validate { file := some {} } = JValue.undef
    ∧ validate {} = JValue.undef
    ∧ ∀ d : InputData, (truthy (validate d) = true ↔
        ∃ f : FileData, ∃ u, d.file = some f ∧ f.url = some u ∧ u ≠ "") := by
  refine ⟨rfl, by decide, rfl, rfl, ?_⟩
  intro d
  rcases d with ⟨f?, cap, tn⟩
  rcases f? with _ | f
  · simp [validate, truthy]
  · rcases f with ⟨u?, ex⟩
    rcases u? with _ | u
    · simp [validate, truthy]
    · simp [validate, truthy]

/-- The registry tune loop of `set data` never touches the file field. -/
theorem foldl_setDataTuneStep_file (d : InputData) (ts : List String)
    (acc : BlockData × List Event) :
    ((ts.foldl (setDataTuneStep d) acc).1).file = (acc.1).file := by
  induction ts generalizing acc with
  | nil => rfl
  | cons t ts ih =>
    rw [List.foldl_cons, ih]
    rfl

/-- After `set data`, the file field holds the input payload or `{}`. -/
theorem setData_file (d : InputData) (st : BlockData) :
    ((setData d st).1).file = some (d.file.getD emptyFile) := by
  simp only [setData]
  rw [foldl_setDataTuneStep_file]
  cases d.file <;> rfl

/-- `set video` with a well-formed payload establishes the invariant. -/
theorem setVideo_good (f : Option FileData) (st : BlockData)
    (hf : wfFile f = true) : goodFile ((setVideo f st).1) = true := by
  cases f with
  | none => rfl
  | some fd => exact hf

/-- `onUpload` with a well-formed payload preserves the invariant. -/
theorem onUpload_good (r : UploadResponse) (st : BlockData)
    (hst : goodFile st = true) (hr : wfFile r.file = true) :
    goodFile ((onUpload r st).1) = true := by
  unfold onUpload
  split
  · exact setVideo_good r.file st hr
  · exact hst

/-- The invariant is preserved by any run of well-formed file operations. -/
theorem foldl_fileOps_good (ops : List FileOp) (st : BlockData)
    (hst : goodFile st = true) (hops : ops.all wfFileOp = true) :
    goodFile (ops.foldl applyFileOp st) = true := by
  induction ops generalizing st with
  | nil => exact hst
  | cons op ops ih =>
    rw [List.all_cons, Bool.and_eq_true] at hops
    rw [List.foldl_cons]
    refine ih _ ?_ hops.2
    cases op with
    | upload r => exact onUpload_good r st hst hops.1
    | setFile f => exact setVideo_good f st hops.1

/-- C2 counterexample: a block constructed with a configured custom action
named `customAction` and an empty input record leaves that tune with no
value at all — `set data` iterates only the static registry, so the claim
that every configured custom action gets a boolean is false. -/
theorem construct_ignores_configured_actions :
    ((construct { actions := [{ name := "customAction" }] } {}).1).tunes.lookup
      "customAction" = none := by decide

/-- C2 amended: after construction from any input record, every tune name
of the static registry (only those — configured custom actions are not
initialized) has a boolean value in the block record: `true` exactly when
the input value is the boolean `true` or the string `"true"`, else
`false` (in particular `false` when the tune is absent). -/
theorem construct_registry_tunes_boolean (cfg : ToolConfig) (d : InputData)
    (n : String) (h : n ∈ registryTunes) :
    ((construct cfg d).1).tunes.lookup n
      = some (lookupJ d.tunes n == JValue.bool true
              || lookupJ d.tunes n == JValue.str "true") := by
  have key : ((construct cfg d).1).tunes =
      [("withBackground",
          if lookupJ d.tunes "withBackground" != JValue.undef
          then (lookupJ d.tunes "withBackground" == JValue.bool true
                || lookupJ d.tunes "withBackground" == JValue.str "true")
          else false),
       ("stretched",
          if lookupJ d.tunes "stretched" != JValue.undef
          then (lookupJ d.tunes "stretched" == JValue.bool true
                || lookupJ d.tunes "stretched" == JValue.str "true")
          else false),
       ("withBorder",
          if lookupJ d.tunes "withBorder" != JValue.undef
          then (lookupJ d.tunes "withBorder" == JValue.bool true
                || lookupJ d.tunes "withBorder" == JValue.str "true")
          else false)] := rfl
  rw [key]
  simp only [registryTunes, List.mem_cons, List.not_mem_nil, or_false] at h
  rcases h with rfl | rfl | rfl
  · rcases hw : lookupJ d.tunes "withBorder" with _ | b | s | m <;> rfl
  · rcases hw : lookupJ d.tunes "stretched" with _ | b | s | m <;> rfl
  · rcases hw : lookupJ d.tunes "withBackground" with _ | b | s | m <;> rfl

/-- Witness for C2's amended theorem: the string `"true"` coerces to the
boolean `true` for the registry tune `stretched`. -/
theorem construct_registry_tunes_boolean_witness :
    ((construct {} { tunes := [("stretched", JValue.str "true")] }).1).tunes.lookup
      "stretched" = some true := by
  have h := construct_registry_tunes_boolean {}
    { tunes := [("stretched", JValue.str "true")] } "stretched" (by decide)
  exact h.trans (by decide)

/-- C3 counterexample: construction with the input record
`{file: {url: ""}}` stores a file mapping that is neither empty nor
carries a non-empty url, so the invariant as claimed over any input
record is false. -/
theorem construct_file_invariant_counterexample :
    goodFile ((construct {} { file := some { url := some "" } }).1) = false := by decide

/-- C3 amended: provided every file payload supplied to construction,
upload completion and file setting is absent, the empty mapping, or a
mapping with a non-empty url, every state reachable through those
operations keeps `_data.file` an empty mapping or a mapping with a
non-empty url. -/
theorem file_invariant_preserved (cfg : ToolConfig) (d : InputData)
    (ops : List FileOp) (hd : wfFile d.file = true)
    (hops : ops.all wfFileOp = true) :
    goodFile (ops.foldl applyFileOp (construct cfg d).1) = true := by
  refine foldl_fileOps_good ops _ ?_ hops
  unfold goodFile
  rw [construct, setData_file]
  cases hdf : d.file with
  | none => rfl
  | some fd =>
    rw [hdf] at hd
    exact hd

/-- Witness for C3's amended theorem: a fresh block, then one successful
upload of `{url:"http://x/v.mp4"}`, ends with the invariant holding. -/
theorem file_invariant_preserved_witness :
    goodFile ([FileOp.upload { success := 1, file := some { url := some "http://x/v.mp4" } }].foldl
      applyFileOp (construct {} {}).1) = true :=
  file_invariant_preserved {} {}
    [FileOp.upload { success := 1, file := some { url := some "http://x/v.mp4" } }]
    (by decide) (by decide)

/-- C4: for every Gateway response, when `success` is truthy and a file
payload is present, `onUpload` is exactly the file setter applied to that
payload; otherwise the failure path emits exactly one user notification,
hides the preloader exactly once, and leaves `_data.file` unchanged. -/
theorem onUpload_success_and_failure (r : UploadResponse) (st : BlockData) :
    ((r.success ≠ 0 ∧ r.file.isSome = true) → onUpload r st = setVideo r.file st)
    ∧ ((r.success = 0 ∨ r.file.isSome = false) →
        ((onUpload r st).1.file = st.file
         ∧ (onUpload r st).2.countP isNotify = 1
         ∧ (onUpload r st).2.count Event.hidePreloader = 1)) := by
  constructor
  · rintro ⟨h1, h2⟩
    have hc : (r.success != 0 && r.file.isSome) = true := by
      simp [bne_iff_ne, h1, h2]
    unfold onUpload
    rw [hc]
    rfl
  · intro h
    have hc : (r.success != 0 && r.file.isSome) = false := by
      rcases h with h | h <;> simp [h]
    have he : onUpload r st =
        uploadingFailed ("incorrect response: " ++ stringifyResponse r) st := by
      unfold onUpload
      rw [hc]
      rfl
    rw [he]
    exact ⟨rfl, rfl, rfl⟩

/-- C5: `setTune("stretched", v)` writes `v` into the local tune state
synchronously and emits exactly one scheduled propagation of `v`; the
scheduled continuation never changes the block record, never notifies the
user, and on failure only logs the error. -/
theorem setTune_stretched_propagation (v : Bool) (st : BlockData)
    (failure : Option String) (host : HostBlock) :
    (((setTune "stretched" v st).1).tunes.lookup "stretched" = some v)
    ∧ ((setTune "stretched" v st).2.countP (fun e => e == Event.scheduleStretched v) = 1)
    ∧ ((runStretchPropagation v failure (setTune "stretched" v st).1 host).1
        = (setTune "stretched" v st).1)
    ∧ (((setTune "stretched" v st).2
        ++ (runStretchPropagation v failure (setTune "stretched" v st).1 host).2.2).countP
          isNotify = 0)
    ∧ (∀ err, failure = some err →
        (runStretchPropagation v failure (setTune "stretched" v st).1 host).2.2
          = [Event.logError err]) := by
  refine ⟨rfl, ?_, ?_, ?_, ?_⟩
  · cases v <;> rfl
  · cases failure <;> rfl
  · cases v <;> cases failure <;> rfl
  · intro err h
    cases failure with
    | none => exact absurd h (by simp)
    | some e =>
      injection h with h'
      rw [h']
      rfl

/-- C6: `onPaste` routes a `tag` event with a local-blob source through the
blob fetch to `uploadFile`, a `tag` event with any other source to
`uploadUrl`, a `pattern` event's URL to `uploadUrl`, a `file` event's
binary to `uploadFile`, and ignores any other event category. -/
theorem onPaste_routing (fetchBlob : String → Blob) (src url k : String) (f : Blob) :
    ("blob:".isPrefixOf src = true →
      onPaste fetchBlob (PasteEvent.tag src) = PasteAction.uploadFile (fetchBlob src))
    ∧ ("blob:".isPrefixOf src = false →
      onPaste fetchBlob (PasteEvent.tag src) = PasteAction.uploadUrl src)
    ∧ onPaste fetchBlob (PasteEvent.pattern url) = PasteAction.uploadUrl url
    ∧ onPaste fetchBlob (PasteEvent.file f) = PasteAction.uploadFile f
    ∧ onPaste fetchBlob (PasteEvent.other k) = PasteAction.ignored := by
  refine ⟨?_, ?_, rfl, rfl, rfl⟩ <;> intro h <;> simp [onPaste, h]

/-- C8: `set video(fileData)` stores `fileData` when truthy and the empty
object when falsy, and emits the Presenter fill call with exactly the new
value's url exactly when that url is a non-empty string; no other event is
emitted. -/
theorem setVideo_file_and_fill (file : Option FileData) (st : BlockData) :
    ((setVideo file st).1).file = some (file.getD emptyFile)
    ∧ (∀ u, Event.fillVideo u ∈ (setVideo file st).2 ↔
        ((file.getD emptyFile).url = some u ∧ u ≠ ""))
    ∧ (∀ e ∈ (setVideo file st).2, ∃ u, e = Event.fillVideo u) := by
  rcases file with _ | fd
  · exact ⟨rfl, by simp [setVideo, emptyFile], by simp [setVideo]⟩
  · rcases fd with ⟨u?, ex⟩
    rcases u? with _ | u
    · exact ⟨rfl, by simp [setVideo], by simp [setVideo]⟩
    · by_cases hu : u = ""
      · subst hu
        exact ⟨rfl, by simp [setVideo], by simp [setVideo]⟩
      · refine ⟨rfl, ?_, ?_⟩
        · intro u'
          simp [setVideo, bne_iff_ne, hu]
          exact ⟨fun h => ⟨h.symm, by rw [h]; exact hu⟩, fun h => h.1.symm⟩
        · simp [setVideo, bne_iff_ne, hu]

/-- C9: for a registry tune name, `setTune(n, true)` then `setTune(n, false)`
leaves the stored tune value at `false`. -/
theorem setTune_toggle_roundtrip (n : String) (st : BlockData)
    (_h : n ∈ registryTunes) :
    (((setTune n false (setTune n true st).1).1).tunes).lookup n = some false := by
  simp [setTune, List.lookup]

/-- Witness for C9 at the concrete tune `withBorder` and the fresh record. -/
theorem setTune_toggle_roundtrip_witness :
    (((setTune "withBorder" false (setTune "withBorder" true initialData).1).1).tunes).lookup
      "withBorder" = some false :=
  setTune_toggle_roundtrip "withBorder" initialData (by decide)

/-- Splits enumerate exactly the decompositions of a list. -/
theorem mem_splits (l a b : List Char) : (a, b) ∈ splits l ↔ l = a ++ b := by
  induction l generalizing a b with
  | nil =>
    simp only [splits, List.mem_singleton, Prod.mk.injEq]
    constructor
    · rintro ⟨rfl, rfl⟩
      rfl
    · intro h
      obtain ⟨rfl, rfl⟩ := List.append_eq_nil.mp h.symm
      exact ⟨rfl, rfl⟩
  | cons c cs ih =>
    simp only [splits, List.mem_cons, List.mem_map]
    constructor
    · rintro (h | ⟨⟨x, y⟩, hmem, heq⟩)
      · rw [Prod.mk.injEq] at h
        obtain ⟨rfl, rfl⟩ := h
        rfl
      · rw [Prod.mk.injEq] at heq
        obtain ⟨h1, h2⟩ := heq
        rw [← h1, ← h2, (ih x y).mp hmem]
        rfl
    · intro h
      cases a with
      | nil =>
        left
        rw [Prod.mk.injEq]
        exact ⟨rfl, h.symm⟩
      | cons a' as =>
        right
        rw [List.cons_append] at h
        injection h with hc hcs
        exact ⟨(as, b), (ih as b).mpr hcs, by rw [Prod.mk.injEq]; exact ⟨by rw [hc], rfl⟩⟩

/-- Existential reading of `any` over all decompositions. -/
theorem any_splits (l : List Char) (p : List Char × List Char → Bool) :
    (splits l).any p = true ↔ ∃ a b, l = a ++ b ∧ p (a, b) = true := by
  rw [List.any_eq_true]
  constructor
  · rintro ⟨⟨a, b⟩, hm, hp⟩
    exact ⟨a, b, (mem_splits l a b).mp hm, hp⟩
  · rintro ⟨a, b, h, hp⟩
    exact ⟨(a, b), (mem_splits l a b).mpr h, hp⟩

/-- The dot-extension test recognizes exactly a dot followed by a
registered extension. -/
theorem isDotExt_iff (e : List Char) :
    isDotExt e = true ↔ ∃ ext, e = '.' :: ext ∧ ext ∈ videoExtensionsL := by
  cases e with
  | nil => simp [isDotExt]
  | cons c tl =>
    simp only [isDotExt, List.head?_cons, List.tail_cons, Bool.and_eq_true, beq_iff_eq,
      Option.some.injEq, isExtension, decide_eq_true_iff, List.cons.injEq]
    constructor
    · rintro ⟨rfl, hm⟩
      exact ⟨tl, ⟨rfl, rfl⟩, hm⟩
    · rintro ⟨ext, ⟨rfl, rfl⟩, hm⟩
      exact ⟨rfl, hm⟩

/-- The query test recognizes exactly the declarative query shape. -/
theorem isQueryPart_iff (q : List Char) : isQueryPart q = true ↔ QueryShape q := by
  cases q with
  | nil => simp [isQueryPart, QueryShape]
  | cons c qs =>
    simp only [isQueryPart, QueryShape, List.isEmpty_cons, Bool.false_or, Bool.and_eq_true,
      beq_iff_eq, Option.some.injEq, List.head?_cons, List.tail_cons, List.all_eq_true,
      List.cons.injEq, reduceCtorEq, false_or]
    constructor
    · rintro ⟨rfl, hall⟩
      exact ⟨qs, ⟨rfl, rfl⟩, hall⟩
    · rintro ⟨qs', ⟨rfl, rfl⟩, hall⟩
      exact ⟨rfl, hall⟩

/-- The body test recognizes exactly a nonempty run outside `\s`. -/
theorem bodyOk_iff (b : List Char) :
    bodyOk b = true ↔ b ≠ [] ∧ ∀ c ∈ b, isJsWhitespace c = false := by
  simp [bodyOk, List.all_eq_true, List.isEmpty_iff, Bool.not_eq_true']

/-- The scheme stripper succeeds exactly on a scheme-prefixed input and
returns the rest. -/
theorem stripScheme_eq_some (t r : List Char) :
    stripScheme t = some r ↔ t = httpsSchemeL ++ r ∨ t = httpSchemeL ++ r := by
  unfold stripScheme
  by_cases h1 : httpsSchemeL.isPrefixOf t
  · rw [if_pos h1]
    obtain ⟨s, hs⟩ := List.isPrefixOf_iff_prefix.mp h1
    constructor
    · intro h
      injection h with h'
      left
      rw [← h', ← hs]
      rfl
    · rintro (h | h)
      · rw [h]
        rfl
      · exfalso
        rw [h] at hs
        injection hs with e1 hs
        injection hs with e2 hs
        injection hs with e3 hs
        injection hs with e4 hs
        injection hs with e5 hs
        exact absurd e5 (by decide)
  · rw [if_neg h1]
    by_cases h2 : httpSchemeL.isPrefixOf t
    · rw [if_pos h2]
      obtain ⟨s, hs⟩ := List.isPrefixOf_iff_prefix.mp h2
      constructor
      · intro h
        injection h with h'
        right
        rw [← h', ← hs]
        rfl
      · rintro (h | h)
        · exfalso
          exact h1 (by rw [h]; exact List.isPrefixOf_iff_prefix.mpr ⟨r, rfl⟩)
        · rw [h]
          rfl
    · rw [if_neg h2]
      constructor
      · intro h
        exact absurd h (by simp)
      · rintro (h | h)
        · exact absurd (by rw [h]; exact List.isPrefixOf_iff_prefix.mpr ⟨r, rfl⟩) h1
        · exact absurd (by rw [h]; exact List.isPrefixOf_iff_prefix.mpr ⟨r, rfl⟩) h2

/-- A tail matches the anchored pattern exactly when it has the
declarative URL shape. -/
theorem matchTail_iff (t : List Char) : matchTail t = true ↔ VideoUrlShape t := by
  unfold matchTail
  cases hss : stripScheme t with
  | none =>
    constructor
    · intro h
      exact absurd h (by simp)
    · rintro ⟨scheme, body, ext, q, ht, hschm, _, _, _, _⟩
      exfalso
      have h2 : stripScheme t = some (body ++ '.' :: (ext ++ q)) := by
        refine (stripScheme_eq_some t _).mpr ?_
        rcases hschm with rfl | rfl
        · exact Or.inl ht
        · exact Or.inr ht
      rw [hss] at h2
      exact absurd h2 (by simp)
  | some r =>
    rw [any_splits]
    have hsch := (stripScheme_eq_some t r).mp hss
    constructor
    · rintro ⟨a, b, hr, hp⟩
      rw [Bool.and_eq_true] at hp
      obtain ⟨hbody, hq⟩ := hp
      rw [any_splits] at hq
      obtain ⟨e, q, hb, hdq⟩ := hq
      rw [Bool.and_eq_true] at hdq
      obtain ⟨hde, hqp⟩ := hdq
      obtain ⟨ext, rfl, hext⟩ := (isDotExt_iff e).mp hde
      obtain ⟨hne, hws⟩ := (bodyOk_iff a).mp hbody
      have hb' : b = '.' :: (ext ++ q) := hb
      rcases hsch with h | h
      · exact ⟨httpsSchemeL, a, ext, q, by rw [h, hr, hb', List.append_assoc], Or.inl rfl,
          hne, hws, hext, (isQueryPart_iff q).mp hqp⟩
      · exact ⟨httpSchemeL, a, ext, q, by rw [h, hr, hb', List.append_assoc], Or.inr rfl,
          hne, hws, hext, (isQueryPart_iff q).mp hqp⟩
    · rintro ⟨scheme, body, ext, q, ht, hschm, hne, hws, hext, hqs⟩
      have hr : r = body ++ '.' :: (ext ++ q) := by
        have h2 : stripScheme t = some (body ++ '.' :: (ext ++ q)) := by
          refine (stripScheme_eq_some t _).mpr ?_
          rcases hschm with rfl | rfl
          · exact Or.inl ht
          · exact Or.inr ht
        exact Option.some.inj (hss.symm.trans h2)
      refine ⟨body, '.' :: (ext ++ q), hr, ?_⟩
      rw [Bool.and_eq_true]
      refine ⟨(bodyOk_iff body).mpr ⟨hne, hws⟩, ?_⟩
      rw [any_splits]
      refine ⟨'.' :: ext, q, rfl, ?_⟩
      rw [Bool.and_eq_true]
      exact ⟨(isDotExt_iff _).mpr ⟨ext, rfl, hext⟩, (isQueryPart_iff q).mpr hqs⟩

/-- The pattern test succeeds exactly when some case-folded suffix has the
declarative URL shape. -/
theorem patternTest_iff (s : String) :
    patternTest s = true ↔
      ∃ pre t, s.data.map Char.toLower = pre ++ t ∧ VideoUrlShape t := by
  unfold patternTest
  rw [List.any_eq_true]
  constructor
  · rintro ⟨t, hmem, hmt⟩
    obtain ⟨pre, hpre⟩ := (List.mem_tails t _).mp hmem
    exact ⟨pre, t, hpre.symm, (matchTail_iff t).mp hmt⟩
  · rintro ⟨pre, t, heq, hshape⟩
    exact ⟨t, (List.mem_tails t _).mpr ⟨pre, heq.symm⟩, (matchTail_iff t).mpr hshape⟩

/-- C7 counterexample: the pattern's `i` flag case-folds the query class
`[a-z0-9=]` too, so `"https://x.mp4?X=1"` matches the source pattern while
the claim's characterization (query of lowercase letters and digits)
rejects it. -/
theorem pastePattern_uppercase_query_counterexample :
    patternTest "https://x.mp4?X=1" = true
    ∧ claimedUrlShape "https://x.mp4?X=1" = false :=
  ⟨by decide, by decide⟩

/-- C7 amended: the static paste URL pattern matches a string iff some
suffix of its ASCII case-folding is `http://` or `https://`, a nonempty
run of characters outside the JavaScript `\s` class, a dot, one of the
recognized extensions, and an
optional query `?` over letters (either case), digits and `=`; in
particular it matches `"https://cdn.example.com/clip.mp4?x=1"` and not
`"https://example.com/doc.pdf"`. -/
theorem pastePattern_characterization :
    (∀ s : String, patternTest s = true ↔
      ∃ pre t, s.data.map Char.toLower = pre ++ t ∧ VideoUrlShape t)
    ∧ patternTest "https://cdn.example.com/clip.mp4?x=1" = true
    ∧ patternTest "https://example.com/doc.pdf" = false :=
  ⟨patternTest_iff, by decide, by decide⟩

/-- C10: `save()` writes the live caption into the record's caption field,
leaves the file field and the tune values untouched, leaves every other
heap object untouched, and returns the very reference of the internal
`_data` object (an aliased view, not a copy). -/
theorem save_frame_and_alias (c : String) (ts : ToolHeap) :
    (save c ts).2 = ts.dataRef
    ∧ (save c ts).1.dataRef = ts.dataRef
    ∧ ((save c ts).1.heap ts.dataRef).caption = some c
    ∧ ((save c ts).1.heap ts.dataRef).file = (ts.heap ts.dataRef).file
    ∧ ((save c ts).1.heap ts.dataRef).tunes = (ts.heap ts.dataRef).tunes
    ∧ (∀ a, a ≠ ts.dataRef → (save c ts).1.heap a = ts.heap a) := by
  refine ⟨rfl, rfl, ?_, ?_, ?_, ?_⟩
  · simp [save]
  · simp [save]
  · simp [save]
  · intro a ha
    simp [save, ha]

end VideoToolProof
